import Mathlib

/-!
Verification of the survey-analysis pipeline implemented in
`src/components/ExcelProcessor.tsx`.

The file embeds the decision logic of the component (column admission,
row projection, batching, the batched analysis run `handleAnalyze`, and
the per-row classification run `handleTopicsAnalysis`) as executable Lean
definitions, and proves the testable properties stated in the design
document about them.

Modelling conventions:
* Cells are display strings.  The component parses workbooks with
  `sheet_to_json(..., { raw: false, defval: '' })`, so every parsed cell
  value is a string and every column of the header is present on every
  row; a missing object key (JS `undefined`) is modelled by `Option`.
* A parsed row is an association list from column name to cell string,
  looked up with `List.lookup` (JS object keys are unique, so first
  match is the match).
* JS string primitives (`toLowerCase`, `trim`, `includes`, `split`,
  `startsWith`, slicing) are modelled by executable functions on the
  character list of a `String`, mirroring their code-unit semantics.
* The network is modelled by an oracle `Nat → LLMResult` giving the
  outcome of the n-th HTTP call issued by a run (the calls of one run
  are issued sequentially, so they are numbered by issue order).
  `LLMResult.ok c` is a 2xx response whose decoded body carries
  `choices[0].message.content = c`; the other constructors are the
  failure shapes distinguished by the component.
* React state updates (`setTables` with a functional update) are
  modelled by explicit state passing of the `List Table` value; stale
  closure variables of the handlers (`currentTable`, captured before a
  run starts) are modelled by reading from the state the handler began
  with.  Transient progress messages that are always overwritten before
  a run ends are not tracked.
-/

namespace ExcelProc

/-! ## JS string primitives, modelled on character lists -/

/-- JS `String.prototype.toLowerCase`, modelled characterwise. -/
def strLower (s : String) : String := ⟨s.data.map Char.toLower⟩

/-- Whitespace trimming on a character list, from both ends. -/
def trimCharList (l : List Char) : List Char :=
  ((l.dropWhile Char.isWhitespace).reverse.dropWhile Char.isWhitespace).reverse

/-- JS `String.prototype.trim`. -/
def strTrim (s : String) : String := ⟨trimCharList s.data⟩

/-- Does `pat` occur as a contiguous subsequence of `s`? -/
def charsHaveSub (s pat : List Char) : Bool :=
  match s with
  | [] => pat.isEmpty
  | _ :: rest => pat.isPrefixOf s || charsHaveSub rest pat

/-- JS `String.prototype.includes`. -/
def strHasSub (s pat : String) : Bool := charsHaveSub s.data pat.data

/-- JS `String.prototype.startsWith`. -/
def strStarts (s pat : String) : Bool := pat.data.isPrefixOf s.data

/-- JS `String.prototype.endsWith`. -/
def strEnds (s pat : String) : Bool := pat.data.reverse.isPrefixOf s.data.reverse

/-- Drop the first `n` characters of a string. -/
def strDropChars (s : String) (n : Nat) : String := ⟨s.data.drop n⟩

/-- Drop the last `n` characters of a string. -/
def strDropRightChars (s : String) (n : Nat) : String :=
  ⟨s.data.take (s.data.length - n)⟩

/-- Splitting helper: cut the character list at every separator. -/
def splitCharsAux (sep : Char → Bool) : List Char → List Char → List (List Char)
  | [], acc => [acc.reverse]
  | c :: rest, acc =>
      if sep c then acc.reverse :: splitCharsAux sep rest []
      else splitCharsAux sep rest (c :: acc)

/-- JS `String.prototype.split` against a single-character class. -/
def strSplitAny (s : String) (sep : Char → Bool) : List String :=
  (splitCharsAux sep s.data []).map (fun l => ⟨l⟩)

/-! ## Parsed rows -/

/-- A parsed spreadsheet row: column name ↦ cell string, as produced by
`sheet_to_json` (string cells, unique keys). -/
abbrev Row := List (String × String)

/-- JS property read `row[c]`: `none` models `undefined`. -/
def lookupCol (row : Row) (c : String) : Option String := List.lookup c row

/-- JS `v || dflt` on an optional string: the default is taken when the
value is absent (`undefined`) or the empty string (falsy). -/
def jsOr (v : Option String) (dflt : String) : String :=
  match v with
  | some s => if s = "" then dflt else s
  | none => dflt

/-- JS property write `o[k] = v` on an object modelled as an association
list: overwrite in place when the key exists, append otherwise. -/
def objSet (o : List (String × String)) (k v : String) : List (String × String) :=
  if o.any (fun p => p.1 = k) then o.map (fun p => if p.1 = k then (k, v) else p)
  else o ++ [(k, v)]

/-! ## Column Selector (current iteration, `ExcelProcessor.tsx`)

`shouldSkipColumn` keeps only headers containing the marker substring
"text" (case-insensitively) or "分列"; `hasEnoughUniqueValues` then
requires at least 10 distinct normalized values. -/

/-- Source `shouldSkipColumn` (current iteration): skip unless the
lower-cased name contains "text" or contains "分列". -/
def shouldSkipColumn (columnName : String) : Bool :=
  let lowerColumnName := strLower columnName
  !(strHasSub lowerColumnName "text") && !(strHasSub lowerColumnName "分列")

/-- The row filter used by both `hasEnoughUniqueValues` and the row
projection: the cell must be present (not `undefined`/`null`) and be
neither the empty string nor the "no answer" sentinel `无`. -/
def cellIsValid : Option String → Bool
  | some v => v ≠ "" && v ≠ "无"
  | none => false

/-- Source `hasEnoughUniqueValues`: keep rows whose cell for the column
is valid, trim each kept value, drop values that became empty, dedupe,
and require at least 10 distinct values. -/
def hasEnoughUniqueValues (data : List Row) (columnName : String) : Bool :=
  let validRows := data.filter (fun row => cellIsValid (lookupCol row columnName))
  let uniqueValues :=
    (((validRows.map (fun row => strTrim ((lookupCol row columnName).getD ""))).filter
        (fun v => v ≠ "")).dedup)
  decide (10 ≤ uniqueValues.length)

/-- `Object.keys(jsonData[0])`, the header list of a parsed dataset. -/
def allColumns (jsonData : List Row) : List String :=
  match jsonData with
  | [] => []
  | firstRow :: _ => firstRow.map Prod.fst

/-- Column admission used in `processExcelFile`, with the skip policy as
a parameter (the two iterations of the tool differ only in this
predicate). -/
def admittedColumns (skipPolicy : String → Bool) (jsonData : List Row) : List String :=
  ((allColumns jsonData).drop 3).filter
    (fun col => !skipPolicy col && hasEnoughUniqueValues jsonData col)

/-- Source column selection in `processExcelFile` (current iteration):
`allColumns.slice(3).filter(col => !shouldSkipColumn(col) &&
hasEnoughUniqueValues(jsonData, col))`. -/
def remainingColumns (jsonData : List Row) : List String :=
  admittedColumns shouldSkipColumn jsonData

/-- Stated from the claim's words (C1): after discarding rows whose
value for the column is empty or the "no answer" sentinel, the number
of distinct trimmed stringified values. -/
def claimDistinctCount (jsonData : List Row) (col : String) : Nat :=
  (((jsonData.filter (fun row => cellIsValid (lookupCol row col))).map
      (fun row => strTrim ((lookupCol row col).getD ""))).dedup).length

/-- Stated from the amended claim's words (C1): as `claimDistinctCount`,
but values that are empty after trimming are excluded from the distinct
count. -/
def claimDistinctNonemptyCount (jsonData : List Row) (col : String) : Nat :=
  ((((jsonData.filter (fun row => cellIsValid (lookupCol row col))).map
      (fun row => strTrim ((lookupCol row col).getD ""))).filter
        (fun v => v ≠ "")).dedup).length

/-! ## Row Projector (`processExcelFile`, per-column `tableData`) -/

/-- A projected row: the `key: index` ordinal plus the object fields
written after it (identity columns, then the target column). -/
structure ProjRow where
  key : Nat
  cells : List (String × String)
deriving DecidableEq

/-- Placeholder row for out-of-range reads (never hit on the traces the
theorems are about). -/
def defaultProjRow : ProjRow := ⟨0, []⟩

/-- Source `tableData` construction (current iteration): keep the rows
whose value for the analyzed column is defined, non-empty and not the
sentinel `无`, then emit `{ key: index, ...identity columns defaulted
with || '', column: row[column] }` in source order. -/
def tableData (jsonData : List Row) (firstThreeColumns : List String)
    (column : String) : List ProjRow :=
  ((jsonData.filter (fun row => cellIsValid (lookupCol row column))).enum).map
    (fun p =>
      { key := p.1
        cells := firstThreeColumns.map (fun col => (col, jsOr (lookupCol p.2 col) "")) ++
          [(column, (lookupCol p.2 column).getD "")] })

/-- Stated from the claim's words (C2): a row is dropped exactly when
its target value is empty (or absent) or the sentinel; an emitted
record carries a stable ordinal key, the identity column values
(defaulting to the empty string when absent) and the target value
verbatim, in source order. -/
def claimProject (jsonData : List Row) (idCols : List String) (target : String) :
    List ProjRow :=
  ((jsonData.filter (fun row =>
      !(match lookupCol row target with
        | none => true
        | some v => v = "" || v = "无"))).enum).map
    (fun p =>
      { key := p.1
        cells := idCols.map (fun col => (col, (lookupCol p.2 col).getD "")) ++
          [(target, (lookupCol p.2 target).getD "")] })

/-! ## Batcher

Both `handleAnalyze` and `handleTopicsAnalysis` build batches with
`for (let i = 0; i < data.length; i += BATCH_SIZE)
   batches.push(data.slice(i, i + BATCH_SIZE))`. -/

/-- The batch-creation loop: batch `i` is `data.slice(i*n, i*n + n)`,
and the loop runs `⌈rows.length / n⌉` times. For `n = 0` the JS loop
would not terminate; the runs only ever use `n = 300`, and the theorems
assume `1 ≤ n`. -/
def chunk (rows : List α) (n : Nat) : List (List α) :=
  if n = 0 then []
  else (List.range ((rows.length + n - 1) / n)).map (fun i => (rows.drop (i * n)).take n)

/-! ## LLM calls and per-column state (current iteration) -/

/-- Outcome of one HTTP call to the chat-completions backend, as
distinguished by the component: a decoded body carrying
`choices[0].message.content`, a non-2xx response (carrying the
`status statusText` string used in error messages), a 2xx response
whose body misses `choices[0].message`, or a rejected `fetch`/`axios`
call (carrying the JS error message). -/
inductive LLMResult where
  | ok (content : String)
  | httpError (status : String)
  | badFormat
  | netError (msg : String)
deriving DecidableEq

/-- Is the call outcome a usable response? -/
def LLMResult.isOk : LLMResult → Bool
  | .ok _ => true
  | _ => false

/-- The `'success' | 'error' | 'analyzing'` status strings of
`ProcessedTable.analysisApiStatus` / `topicsApiStatus`. -/
inductive ApiStatus where
  | success
  | error
  | analyzing
deriving DecidableEq

/-- The `ProcessedTable` state of the current iteration (rendering-only
fields omitted; optional string fields are `Option`; transient progress
messages are tracked only through their final value). -/
structure Table where
  name : String
  data : List ProjRow
  analysis : Option String
  isAnalyzing : Bool
  commonTopics : List String
  isAnalyzingTopics : Bool
  topicsAnalysis : Option String
  topicsApiStatus : Option ApiStatus
  topicsApiMessage : Option String
  analysisApiStatus : Option ApiStatus
  analysisApiMessage : Option String
deriving DecidableEq

/-- Placeholder table for out-of-range reads (JS would crash there; the
theorems keep indices in range). -/
def defaultTable : Table :=
  { name := ""
    data := []
    analysis := none
    isAnalyzing := false
    commonTopics := []
    isAnalyzingTopics := false
    topicsAnalysis := none
    topicsApiStatus := none
    topicsApiMessage := none
    analysisApiStatus := none
    analysisApiMessage := none }

/-! ## Batch Analyzer and Summarizer (`handleAnalyze`, current iteration) -/

/-- Message of the error thrown inside the per-batch `try` of
`handleAnalyze` for the `batchIndex`-th batch (0-based), as built by the
source: non-2xx and malformed bodies throw batch-labelled errors, a
rejected `fetch` propagates its own message. -/
def batchThrownMsg (batchIndex : Nat) : LLMResult → String
  | .ok _ => ""
  | .httpError status => "批次" ++ toString (batchIndex + 1) ++ "API请求失败: " ++ status
  | .badFormat => "批次" ++ toString (batchIndex + 1) ++ "API返回数据格式错误"
  | .netError msg => msg

/-- The `batchResults` array the per-batch loop of `handleAnalyze`
accumulates: the response content on success, the placeholder
`批次i分析失败: ...` on any per-batch failure.  Batch `i` is the `i`-th
call of the run. -/
def handleAnalyzeBatchResults (batches : List (List ProjRow))
    (oracle : Nat → LLMResult) : List String :=
  batches.enum.map (fun p =>
    match oracle p.1 with
    | .ok content => content
    | r => "批次" ++ toString (p.1 + 1) ++ "分析失败: " ++ batchThrownMsg p.1 r)

/-- Message of the error thrown by the final-summary stage of
`handleAnalyze`. -/
def finalAnalyzeThrownMsg : LLMResult → String
  | .ok _ => ""
  | .httpError status => "最终汇总API请求失败: " ++ status
  | .badFormat => "最终汇总API返回数据格式错误"
  | .netError msg => msg

/-- Result of one `handleAnalyze` run: the new table-list state, the
`batchResults` handed to the summary prompt (`none` when the run
exited on the in-progress guard), and how many LLM calls were made. -/
structure AnalyzeRun where
  tables : List Table
  summaryInput : Option (List String)
  calls : Nat
deriving DecidableEq

/-- Source `handleAnalyze` (current iteration): no-op when
`tables[index].isAnalyzing`; otherwise batch `currentTable.data` with
`BATCH_SIZE = 300`, run every batch (absorbing per-batch failures into
placeholder strings), then issue the final summary call; that last call
decides between the success update (storing `analysis`) and the `catch`
update (error status, `analysis` untouched). -/
def handleAnalyze (st : List Table) (index : Nat) (oracle : Nat → LLMResult) :
    AnalyzeRun :=
  let currentTable := st.getD index defaultTable
  if currentTable.isAnalyzing then ⟨st, none, 0⟩
  else
    let batches := chunk currentTable.data 300
    let batchResults := handleAnalyzeBatchResults batches oracle
    match oracle batches.length with
    | .ok content =>
        ⟨st.set index { currentTable with
            isAnalyzing := false
            analysis := some content
            analysisApiStatus := some .success
            analysisApiMessage := some "整体分析完成！" },
         some batchResults, batches.length + 1⟩
    | r =>
        ⟨st.set index { currentTable with
            isAnalyzing := false
            analysisApiStatus := some .error
            analysisApiMessage := some ("分析失败: " ++ finalAnalyzeThrownMsg r) },
         some batchResults, batches.length + 1⟩

/-! ## Topic Classifier (`handleTopicsAnalysis`, current iteration) -/

/-- `name.replace(/^表格 - /, '')`. -/
def stripNamePre (s : String) : String :=
  if strStarts s "表格 - " then strDropChars s ("表格 - ".length) else s

/-- `name.replace(/（共 \d+ 条数据）$/, '')`: the anchored pattern
matches exactly when the string ends in `（共 `, at least one ASCII
digit, then ` 条数据）`. -/
def stripNameSuf (s : String) : String :=
  if strEnds s " 条数据）" then
    let t := strDropRightChars s (" 条数据）".length)
    let ds := (t.data.reverse.takeWhile Char.isDigit).length
    if ds ≠ 0 && strEnds (strDropRightChars t ds) "（共 " then
      strDropRightChars (strDropRightChars t ds) ("（共 ".length)
    else s
  else s

/-- The column-name recovery both topic handlers perform on
`currentTable.name`. -/
def extractColumnName (name : String) : String := stripNameSuf (stripNamePre name)

/-- `commonTopicsInput.split(/[、,，\n]/).filter(t => t.trim())`. -/
def parsedTopics (input : String) : List String :=
  (strSplitAny input (fun c => c = '、' || c = ',' || c = '，' || c = '\n')).filter
    (fun t => strTrim t ≠ "")

/-- Source `analyzeTopicWithDeepSeek` (current iteration): blank content
resolves to `内容为空` with no call; otherwise one call is made, a
non-empty content field resolves, and every failure (rejected request,
401/429, other transport errors, missing or empty content) rejects with
the error message the code builds.  The second component is the number
of LLM calls made (0 or 1). -/
def analyzeTopicWithDeepSeek (content : String) (res : LLMResult) :
    Except String String × Nat :=
  if content = "" || strTrim content = "" then (.ok "内容为空", 0)
  else
    match res with
    | .ok c => if c = "" then (.error "分析失败: API返回数据格式错误", 1) else (.ok c, 1)
    | .badFormat => (.error "分析失败: API返回数据格式错误", 1)
    | .httpError status =>
        (if status = "401" then .error "API认证失败，请检查API密钥"
         else if status = "429" then .error "API请求过于频繁，请稍后重试"
         else .error ("分析失败: " ++ status), 1)
    | .netError msg => (.error ("分析失败: " ++ msg), 1)

/-- `row[columnName] || row[currentTable.name] || ''`, the per-row text
read by the classification loop and the aggregation payload. -/
def rowContent (columnName tableName : String) (row : ProjRow) : String :=
  jsOr (lookupCol row.cells columnName) (jsOr (lookupCol row.cells tableName) "")

/-- `newData[globalIndex] = { ...newData[globalIndex], 共性内容分析: a }`. -/
def annotateRowAt (data : List ProjRow) (i : Nat) (a : String) : List ProjRow :=
  data.set i
    { key := (data.getD i defaultProjRow).key
      cells := objSet (data.getD i defaultProjRow).cells "共性内容分析" a }

/-- The inner per-row loop of `handleTopicsAnalysis` over one batch:
rows with falsy content are skipped; every other row runs
`analyzeTopicWithDeepSeek`, storing its result, or `分析失败` when it
rejects, at `globalIndex = batchIndex * 300 + rowIndex` of the live
data.  `k` is the number of LLM calls made so far. -/
def runBatchRows (columnName tableName : String) (oracle : Nat → LLMResult)
    (batchIndex : Nat) (batch : List ProjRow) (rowIndex : Nat)
    (data : List ProjRow) (k : Nat) : List ProjRow × Nat :=
  match batch with
  | [] => (data, k)
  | row :: rest =>
      let globalIndex := batchIndex * 300 + rowIndex
      let content := rowContent columnName tableName row
      if content = "" then
        runBatchRows columnName tableName oracle batchIndex rest (rowIndex + 1) data k
      else
        let step := analyzeTopicWithDeepSeek content (oracle k)
        let a := match step.1 with
          | .ok x => x
          | .error _ => "分析失败"
        runBatchRows columnName tableName oracle batchIndex rest (rowIndex + 1)
          (annotateRowAt data globalIndex a) (k + step.2)

/-- The outer per-batch loop of the classification run. -/
def runTopicBatches (columnName tableName : String) (oracle : Nat → LLMResult)
    (batches : List (List ProjRow)) (batchIndex : Nat)
    (data : List ProjRow) (k : Nat) : List ProjRow × Nat :=
  match batches with
  | [] => (data, k)
  | b :: rest =>
      let r := runBatchRows columnName tableName oracle batchIndex b 0 data k
      runTopicBatches columnName tableName oracle rest (batchIndex + 1) r.1 r.2

/-- One record of the `analysisData` array serialized into the final
aggregation prompt of `handleTopicsAnalysis`; `userInfo`,
`questionContent` and `topicMark` stand for the source's record fields
`用户信息`, `问题内容` and `共性内容分析`. -/
structure AnalysisRecord where
  userInfo : String
  questionContent : String
  topicMark : String
deriving DecidableEq

/-- Source `analysisData` construction: built by mapping over
`updatedTable.data`, which the code forces back to `currentTable.data`
— the data captured before the per-row loop ran. -/
def analysisData (t : Table) (columnName : String) : List AnalysisRecord :=
  t.data.map (fun row =>
    { userInfo := jsOr (lookupCol row.cells "姓名") "" ++ "-" ++
        jsOr (lookupCol row.cells "系统号") ""
      questionContent := rowContent columnName t.name row
      topicMark := jsOr (lookupCol row.cells "共性内容分析") "" })

/-- Message of the error thrown by the final aggregation stage of
`handleTopicsAnalysis`. -/
def topicsFinalThrownMsg : LLMResult → String
  | .ok _ => ""
  | .httpError status => "API请求失败: " ++ status
  | .badFormat => "API返回数据格式错误"
  | .netError msg => msg

/-- Result of one `handleTopicsAnalysis` run: the new table-list state,
the topic list and `analysisData` records handed to the aggregation
prompt (`none` when the run exited before that call), and the number of
LLM calls made. -/
structure TopicsRun where
  tables : List Table
  payload : Option (List String × List AnalysisRecord)
  calls : Nat
deriving DecidableEq

/-- Source `handleTopicsAnalysis` (current iteration): no-op when
already classifying or when no topic parses from the input; otherwise
set the run flags, classify every row of every 300-row batch
sequentially (per-row failures marked `分析失败`, falsy rows skipped),
then issue one aggregation call over `analysisData` — built from the
stale `currentTable.data` snapshot — whose outcome alone decides the
success or error update. -/
def handleTopicsAnalysis (st : List Table) (index : Nat)
    (commonTopicsInput : String) (oracle : Nat → LLMResult) : TopicsRun :=
  let t0 := st.getD index defaultTable
  if t0.isAnalyzingTopics then ⟨st, none, 0⟩
  else
    let topics := parsedTopics commonTopicsInput
    if topics = [] then ⟨st, none, 0⟩
    else
      let currentTable := t0
      let columnName := extractColumnName currentTable.name
      let batches := chunk currentTable.data 300
      let started := { t0 with
        isAnalyzingTopics := true
        commonTopics := topics
        topicsApiStatus := some ApiStatus.analyzing }
      let loopRes := runTopicBatches columnName currentTable.name oracle batches 0
        started.data 0
      let payloadRecords := analysisData currentTable columnName
      match oracle loopRes.2 with
      | .ok content =>
          ⟨st.set index { started with
              data := loopRes.1
              isAnalyzingTopics := false
              topicsAnalysis := some content
              topicsApiStatus := some .success
              topicsApiMessage := some "共性内容分析完成！" },
           some (topics, payloadRecords), loopRes.2 + 1⟩
      | r =>
          ⟨st.set index { started with
              data := loopRes.1
              isAnalyzingTopics := false
              topicsApiStatus := some .error
              topicsApiMessage := some ("分析失败: " ++ topicsFinalThrownMsg r) },
           some (topics, payloadRecords), loopRes.2 + 1⟩

/-! ## Claim-side descriptions of the classification loop (C7)

These definitions restate, from the specification's words, what one
classification run does per row; the theorems connect them to the
`runTopicBatches`/`runBatchRows` loop embedded from the source. -/

/-- Number of LLM calls one row costs: none when its content is falsy
or blank, one otherwise. -/
def rowCallCount (columnName tableName : String) (row : ProjRow) : Nat :=
  let content := rowContent columnName tableName row
  if content = "" then 0 else if strTrim content = "" then 0 else 1

/-- Number of LLM calls made before row `i` of the loop. -/
def callsBefore (columnName tableName : String) (rows : List ProjRow) (i : Nat) : Nat :=
  ((rows.take i).map (rowCallCount columnName tableName)).sum

/-- Total number of per-row LLM calls of a classification run. -/
def totalRowCalls (columnName tableName : String) (rows : List ProjRow) : Nat :=
  (rows.map (rowCallCount columnName tableName)).sum

/-- The mark stored for a row that enters the classification branch:
the resolved result, or `分析失败` when the per-row call rejects. -/
def classifyMark (content : String) (res : LLMResult) : String :=
  match (analyzeTopicWithDeepSeek content res).1 with
  | .ok x => x
  | .error _ => "分析失败"

/-- The sequential classification pass, recorded as one optional mark
per row (`none` = row skipped) together with the final call counter. -/
def classifyMarks (columnName tableName : String) (oracle : Nat → LLMResult) :
    List ProjRow → Nat → List (Option String) × Nat
  | [], k => ([], k)
  | row :: rest, k =>
      let content := rowContent columnName tableName row
      if content = "" then
        let r := classifyMarks columnName tableName oracle rest k
        (none :: r.1, r.2)
      else
        let step := analyzeTopicWithDeepSeek content (oracle k)
        let a := match step.1 with
          | .ok x => x
          | .error _ => "分析失败"
        let r := classifyMarks columnName tableName oracle rest (k + step.2)
        (some a :: r.1, r.2)

/-- Apply a list of optional marks to consecutive data positions
starting at `start`. -/
def applyMarksAt (data : List ProjRow) (start : Nat) :
    List (Option String) → List ProjRow
  | [] => data
  | none :: ms => applyMarksAt data (start + 1) ms
  | some a :: ms => applyMarksAt (annotateRowAt data start a) (start + 1) ms

/-- Stated from the claim's words (C7): the mark a row receives —
blank text is marked `内容为空` without a call; otherwise the row gets
its call's result, or `分析失败` when that call fails (transport error,
or a malformed response: a missing or empty content field). -/
def claimRowMark (content : String) (res : LLMResult) : String :=
  if strTrim content = "" then "内容为空"
  else
    match res with
    | .ok c => if c = "" then "分析失败" else c
    | _ => "分析失败"

/-- Stated from the claim's words (C7): every row of the dataset,
annotated independently with its own mark, where the `i`-th row's call
(if any) is the run's call number `callsBefore i`. -/
def claimClassifiedData (columnName tableName : String) (oracle : Nat → LLMResult)
    (rows : List ProjRow) : List ProjRow :=
  rows.enum.map (fun p =>
    { key := p.2.key
      cells := objSet p.2.cells "共性内容分析"
        (claimRowMark (rowContent columnName tableName p.2)
          (oracle (callsBefore columnName tableName rows p.1))) })

/-- Apply one optional mark per row, positionally. -/
def zipApply (rows : List ProjRow) (ms : List (Option String)) : List ProjRow :=
  List.zipWith
    (fun row m =>
      match m with
      | some a => ProjRow.mk row.key (objSet row.cells "共性内容分析" a)
      | none => row)
    rows ms

/-! ## Earlier iteration (first component in the file): `analyzeDataWithDeepSeek`
and its `handleAnalyze` caller -/

namespace Early

/-- The earlier iteration's `ProcessedTable` state. -/
structure ProcessedTable where
  name : String
  data : List ProjRow
  analysis : Option String
  isAnalyzing : Bool
  commonTopics : List String
  isAnalyzingTopics : Bool
deriving DecidableEq

/-- Placeholder for out-of-range reads. -/
def defaultProcessedTable : ProcessedTable :=
  { name := ""
    data := []
    analysis := none
    isAnalyzing := false
    commonTopics := []
    isAnalyzingTopics := false }

/-- Source `analyzeDataWithDeepSeek` (earlier iteration): a resolved
response with a truthy `choices[0].message.content` yields that text; a
resolved response without one yields `无分析结果`; every rejected call
(transport error or non-2xx, which axios rejects on) is caught and
yields `数据分析失败，请稍后重试`.  The promise never rejects. -/
def analyzeDataWithDeepSeek : LLMResult → String
  | .ok c => if c = "" then "无分析结果" else c
  | .httpError _ => "数据分析失败，请稍后重试"
  | .badFormat => "无分析结果"
  | .netError _ => "数据分析失败，请稍后重试"

/-- JS truthiness of the optional `analysis` field, as tested by the
guard `table.isAnalyzing || table.analysis`. -/
def analysisTruthy : Option String → Bool
  | some s => s ≠ ""
  | none => false

/-- Source `handleAnalyze` (earlier iteration): no-op when already
analyzing or when `analysis` is truthy; otherwise one
`analyzeDataWithDeepSeek` call, whose (always resolved) string is
stored as the table's `analysis` with `isAnalyzing` reset. -/
def handleAnalyze (tables : List ProcessedTable) (index : Nat)
    (res : LLMResult) : List ProcessedTable × Nat :=
  let table := tables.getD index defaultProcessedTable
  if table.isAnalyzing || analysisTruthy table.analysis then (tables, 0)
  else
    (tables.set index { table with
        analysis := some (analyzeDataWithDeepSeek res)
        isAnalyzing := false }, 1)

end Early

/-! ## Concrete data for counterexamples and witnesses -/

/-- Ten parsed rows over columns `姓名, 系统号, 部门, 反馈text`; the
analyzed column's values are nine distinct answers and one
whitespace-only cell. -/
def c1Data : List Row :=
  [[("姓名", "甲"), ("系统号", "1"), ("部门", "d"), ("反馈text", " ")],
   [("姓名", "乙"), ("系统号", "2"), ("部门", "d"), ("反馈text", "a1")],
   [("姓名", "丙"), ("系统号", "3"), ("部门", "d"), ("反馈text", "a2")],
   [("姓名", "丁"), ("系统号", "4"), ("部门", "d"), ("反馈text", "a3")],
   [("姓名", "戊"), ("系统号", "5"), ("部门", "d"), ("反馈text", "a4")],
   [("姓名", "己"), ("系统号", "6"), ("部门", "d"), ("反馈text", "a5")],
   [("姓名", "庚"), ("系统号", "7"), ("部门", "d"), ("反馈text", "a6")],
   [("姓名", "辛"), ("系统号", "8"), ("部门", "d"), ("反馈text", "a7")],
   [("姓名", "壬"), ("系统号", "9"), ("部门", "d"), ("反馈text", "a8")],
   [("姓名", "癸"), ("系统号", "10"), ("部门", "d"), ("反馈text", "a9")]]

/-- A dataset that was already analyzed (it has a narrative summary)
and is not mid-run. -/
def c4Table : Table :=
  { defaultTable with
    name := "表格 - 反馈text（共 0 条数据）"
    analysis := some "已有的分析结果"
    isAnalyzing := false }

/-- A one-row projected dataset, as built by `processExcelFile` for
column `反馈text`. -/
def c8Row : ProjRow :=
  ⟨0, [("姓名", "张三"), ("系统号", "001"), ("部门", "d"), ("反馈text", "流程太慢")]⟩

/-- The per-column table holding `c8Row`. -/
def c8Table : Table :=
  { defaultTable with
    name := "表格 - 反馈text（共 1 条数据）"
    data := [c8Row] }

/-- `c1Data` with an extra row: the analyzed column now has ten
distinct non-blank values. -/
def c1PassData : List Row :=
  c1Data ++ [[("姓名", "子"), ("系统号", "11"), ("部门", "d"), ("反馈text", "a10")]]

/-- An idle dataset with no analysis yet. -/
def c6Table : Table :=
  { defaultTable with
    name := "表格 - 反馈text（共 0 条数据）" }

/-- A dataset that is mid-run. -/
def c4BusyTable : Table :=
  { defaultTable with
    name := "表格 - 反馈text（共 0 条数据）"
    isAnalyzing := true }

/-! # Theorems

First the supporting lemmas, then the claim theorems. -/

/-! ## Batcher lemmas -/

theorem chunk_nil (n : Nat) : chunk ([] : List α) n = [] := by
  unfold chunk
  rcases eq_or_ne n 0 with h | h
  · simp [h]
  · have h1 : (0 + n - 1) / n = 0 := Nat.div_eq_of_lt (by omega)
    simp only [List.length_nil, if_neg h, h1, List.range_zero, List.map_nil]

theorem chunk_cons (rows : List α) (n : Nat) (hr : rows ≠ []) (hn : n ≠ 0) :
    chunk rows n = rows.take n :: chunk (rows.drop n) n := by
  have hpos : 0 < rows.length := List.length_pos.mpr hr
  unfold chunk
  simp only [if_neg hn]
  have hC : (rows.length + n - 1) / n = ((rows.drop n).length + n - 1) / n + 1 := by
    simp only [List.length_drop]
    rcases Nat.lt_or_ge rows.length n with hc | hc
    · have h0 : rows.length - n = 0 := by omega
      have h1 : (0 + n - 1) / n = 0 := Nat.div_eq_of_lt (by omega)
      have h2 : rows.length + n - 1 = (rows.length - 1) + n := by omega
      have h3 : (rows.length - 1) / n = 0 := Nat.div_eq_of_lt (by omega)
      rw [h0, h1, h2, Nat.add_div_right _ (by omega), h3]
    · have h2 : rows.length - n + n - 1 = rows.length - 1 := by omega
      have h3 : rows.length + n - 1 = (rows.length - 1) + n := by omega
      rw [h2, h3, Nat.add_div_right _ (by omega)]
  rw [hC, List.range_succ_eq_map, List.map_cons]
  simp only [Nat.zero_mul, List.drop_zero, List.map_map]
  congr 1
  apply List.map_congr_left
  intro i _
  simp only [Function.comp_apply, List.drop_drop]
  congr 2
  simp [Nat.succ_mul]
  ring

theorem chunk_flatten (rows : List α) (n : Nat) (hn : 1 ≤ n) :
    (chunk rows n).flatten = rows := by
  rcases eq_or_ne rows [] with hr | hr
  · simp [hr, chunk_nil]
  · have hpos : 0 < rows.length := List.length_pos.mpr hr
    rw [chunk_cons rows n hr (by omega), List.flatten_cons,
      chunk_flatten (rows.drop n) n hn, List.take_append_drop]
termination_by rows.length
decreasing_by
  simp only [List.length_drop]
  omega

theorem chunk_length (rows : List α) (n : Nat) (hn : 1 ≤ n) :
    (chunk rows n).length = (rows.length + n - 1) / n := by
  unfold chunk
  simp only [if_neg (by omega : ¬n = 0), List.length_map, List.length_range]

theorem chunk_mem_length_le (rows : List α) (n : Nat) (hn : 1 ≤ n)
    (c : List α) (hc : c ∈ chunk rows n) : c.length ≤ n := by
  unfold chunk at hc
  simp only [if_neg (by omega : ¬n = 0), List.mem_map] at hc
  obtain ⟨i, _, rfl⟩ := hc
  simp

theorem chunk_getD_length (rows : List α) (n : Nat) (hn : 1 ≤ n) (i : Nat)
    (hi : i + 1 < (chunk rows n).length) : ((chunk rows n).getD i []).length = n := by
  rcases eq_or_ne rows [] with hr | hr
  · rw [hr, chunk_nil] at hi
    simp at hi
  · rw [chunk_cons rows n hr (by omega)] at hi ⊢
    cases i with
    | zero =>
      simp only [List.getD_cons_zero, List.length_take]
      simp only [List.length_cons] at hi
      have hne : chunk (rows.drop n) n ≠ [] := by
        intro h0
        rw [h0] at hi
        simp at hi
      have hdrop : rows.drop n ≠ [] := by
        intro h0
        rw [h0, chunk_nil] at hne
        exact hne rfl
      have : n < rows.length := by
        by_contra hle
        exact hdrop (List.drop_eq_nil_of_le (by omega))
      omega
    | succ j =>
      simp only [List.getD_cons_succ]
      simp only [List.length_cons] at hi
      exact chunk_getD_length (rows.drop n) n hn j (by omega)
termination_by rows.length
decreasing_by
  simp only [List.length_drop]
  have : 0 < rows.length := List.length_pos.mpr hr
  omega

/-! ## Small helper lemmas -/

theorem getD_set_self {β : Type _} (l : List β) (i : Nat) (a d : β)
    (h : i < l.length) : (l.set i a).getD i d = a := by
  rw [List.getD_eq_getElem?_getD, List.getElem?_set_self (by omega)]
  rfl

theorem jsOr_empty_default (v : Option String) : jsOr v "" = v.getD "" := by
  cases v with
  | none => rfl
  | some s =>
      simp only [jsOr, Option.getD_some]
      by_cases h : s = "" <;> simp [h]

theorem lookup_append_of_no_key (ps qs : List (String × String)) (c : String)
    (h : ∀ p ∈ ps, p.1 ≠ c) : List.lookup c (ps ++ qs) = List.lookup c qs := by
  induction ps with
  | nil => rfl
  | cons p ps ih =>
      obtain ⟨pk, pv⟩ := p
      have hp : pk ≠ c := h (pk, pv) (by simp)
      have hbeq : (c == pk) = false := by
        simp only [beq_eq_false_iff_ne, ne_eq]
        exact fun hc => hp hc.symm
      simp only [List.cons_append, List.lookup, hbeq]
      exact ih (fun q hq => h q (by simp [hq]))

theorem mem_enum_snd {β : Type _} {l : List β} {p : Nat × β} (h : p ∈ l.enum) :
    p.2 ∈ l := by
  rw [List.enum_eq_zip_range] at h
  obtain ⟨i, a⟩ := p
  exact (List.of_mem_zip h).2

/-! ## Claim theorems: Batcher (C3) -/

/-- C3: for every row sequence and every batch size `n ≥ 1`, the batch
loop is lossless and order-preserving (concatenating the chunks yields
the rows), the number of chunks is `⌈rows.length / n⌉` (so empty input
yields zero chunks), every chunk has at most `n` rows, and every chunk
other than the last has exactly `n`. -/
theorem claim_C3 (rows : List α) (n : Nat) (hn : 1 ≤ n) :
    (chunk rows n).flatten = rows ∧
    (chunk rows n).length = (rows.length + n - 1) / n ∧
    (∀ c ∈ chunk rows n, c.length ≤ n) ∧
    (∀ i, i + 1 < (chunk rows n).length → ((chunk rows n).getD i []).length = n) :=
  ⟨chunk_flatten rows n hn, chunk_length rows n hn,
   fun c hc => chunk_mem_length_le rows n hn c hc,
   fun i hi => chunk_getD_length rows n hn i hi⟩

/-- C3 witness at five rows and batch size two. -/
theorem claim_C3_witness :
    (chunk [1, 2, 3, 4, 5] 2).flatten = [1, 2, 3, 4, 5] ∧
    (chunk [1, 2, 3, 4, 5] 2).length = (5 + 2 - 1) / 2 ∧
    (∀ c ∈ chunk [1, 2, 3, 4, 5] 2, c.length ≤ 2) ∧
    (∀ i, i + 1 < (chunk [1, 2, 3, 4, 5] 2).length →
      ((chunk [1, 2, 3, 4, 5] 2).getD i []).length = 2) :=
  claim_C3 [1, 2, 3, 4, 5] 2 (by decide)

/-! ## Claim theorems: Column Selector (C1) -/

/-- C1 counterexample: in `c1Data` the column `反馈text` lies past the
first three columns, passes the marker policy, and has 10 distinct
trimmed values after discarding empty and sentinel rows (the
whitespace-only cell trims to the empty string and is one of them), yet
the code rejects the column: the claimed equivalence fails. -/
theorem claim_C1_counterexample :
    "反馈text" ∈ (allColumns c1Data).drop 3 ∧
    shouldSkipColumn "反馈text" = false ∧
    10 ≤ claimDistinctCount c1Data "反馈text" ∧
    "反馈text" ∉ remainingColumns c1Data := by decide

/-- C1 (amended): a column past the first three is admitted iff it
passes the admission-policy predicate and, after discarding rows whose
value is empty or the sentinel, at least 10 distinct trimmed values
remain that are non-empty after trimming (whitespace-only values do not
count). Holds for any configured skip policy, hence for both the
marker-substring and the blacklist-pattern iterations. -/
theorem claim_C1_amended (skipPolicy : String → Bool) (jsonData : List Row)
    (col : String) (hcol : col ∈ (allColumns jsonData).drop 3) :
    col ∈ admittedColumns skipPolicy jsonData ↔
      (skipPolicy col = false ∧ 10 ≤ claimDistinctNonemptyCount jsonData col) := by
  unfold admittedColumns hasEnoughUniqueValues claimDistinctNonemptyCount
  rw [List.mem_filter]
  simp [hcol, decide_eq_true_iff]

/-- C1 witness: on `c1PassData` (ten distinct non-blank answers) the
amended equivalence holds and admits the column. -/
theorem claim_C1_witness :
    ("反馈text" ∈ (allColumns c1PassData).drop 3) ∧
    ("反馈text" ∈ admittedColumns shouldSkipColumn c1PassData ↔
      (shouldSkipColumn "反馈text" = false ∧
        10 ≤ claimDistinctNonemptyCount c1PassData "反馈text")) :=
  ⟨by decide, claim_C1_amended shouldSkipColumn c1PassData "反馈text" (by decide)⟩

/-! ## Claim theorems: Row Projector (C2) -/

/-- C2: the projector emits exactly the rows whose target value is
neither empty (or absent) nor the sentinel `无`, in source order, each
record carrying the ordinal key, the identity values (empty string when
absent) and the target value verbatim; hence its length is the number
of such rows, and no emitted record has an empty or sentinel target
value. -/
theorem claim_C2 (jsonData : List Row) (idCols : List String) (column : String)
    (hdisj : column ∉ idCols) :
    tableData jsonData idCols column = claimProject jsonData idCols column ∧
    (tableData jsonData idCols column).length =
      (jsonData.filter (fun row =>
        !(match lookupCol row column with
          | none => true
          | some v => v = "" || v = "无"))).length ∧
    ∀ r ∈ tableData jsonData idCols column,
      ∃ v, lookupCol r.cells column = some v ∧ v ≠ "" ∧ v ≠ "无" := by
  have hfil : ∀ row : Row,
      (cellIsValid (lookupCol row column)) =
        !(match lookupCol row column with
          | none => true
          | some v => v = "" || v = "无") := by
    intro row
    cases lookupCol row column with
    | none => rfl
    | some v =>
        by_cases h1 : v = "" <;> by_cases h2 : v = "无" <;>
          simp [cellIsValid, h1, h2]
  have heq : tableData jsonData idCols column = claimProject jsonData idCols column := by
    unfold tableData claimProject
    rw [List.filter_congr (fun row _ => hfil row)]
    simp only [jsOr_empty_default]
  refine ⟨heq, ?_, ?_⟩
  · rw [heq]
    unfold claimProject
    rw [List.length_map, List.enum_length, ← List.filter_congr (fun row _ => hfil row),
      List.filter_congr (fun row _ => hfil row)]
  · intro r hr
    unfold tableData at hr
    rw [List.mem_map] at hr
    obtain ⟨p, hp, rfl⟩ := hr
    have hmem := mem_enum_snd hp
    rw [List.mem_filter] at hmem
    have hvalid := hmem.2
    cases hv : lookupCol p.2 column with
    | none =>
        rw [hv] at hvalid
        exact absurd hvalid (by simp [cellIsValid])
    | some v =>
        rw [hv] at hvalid
        simp only [cellIsValid, Bool.and_eq_true, decide_eq_true_iff] at hvalid
        refine ⟨v, ?_, hvalid.1, hvalid.2⟩
        unfold lookupCol
        dsimp only
        rw [lookup_append_of_no_key]
        · simp [List.lookup]
        · intro q hq
          rw [List.mem_map] at hq
          obtain ⟨c, hc, rfl⟩ := hq
          exact fun hqc => hdisj (hqc ▸ hc)

/-- C2 witness at `c1Data`, identity columns `姓名, 系统号, 部门`,
target `反馈text`. -/
theorem claim_C2_witness :
    ("反馈text" ∉ ["姓名", "系统号", "部门"]) ∧
    (tableData c1Data ["姓名", "系统号", "部门"] "反馈text" =
        claimProject c1Data ["姓名", "系统号", "部门"] "反馈text" ∧
      (tableData c1Data ["姓名", "系统号", "部门"] "反馈text").length =
        (c1Data.filter (fun row =>
          !(match lookupCol row "反馈text" with
            | none => true
            | some v => v = "" || v = "无"))).length ∧
      ∀ r ∈ tableData c1Data ["姓名", "系统号", "部门"] "反馈text",
        ∃ v, lookupCol r.cells "反馈text" = some v ∧ v ≠ "" ∧ v ≠ "无") :=
  ⟨by decide, claim_C2 c1Data ["姓名", "系统号", "部门"] "反馈text" (by decide)⟩

/-! ## Claim theorems: idempotence guard of the analysis run (C4) -/

/-- C4 counterexample: `c4Table` already carries a narrative summary
and is not mid-run, yet invoking `handleAnalyze` on it again performs
one LLM call (the aggregation call over zero batches) and changes the
dataset state — the second invocation is not a no-op. -/
theorem claim_C4_counterexample :
    c4Table.analysis = some "已有的分析结果" ∧
    c4Table.isAnalyzing = false ∧
    (handleAnalyze [c4Table] 0 (fun _ => .ok "新结果")).calls = 1 ∧
    (handleAnalyze [c4Table] 0 (fun _ => .ok "新结果")).tables ≠ [c4Table] := by
  decide

/-- C4 (amended): `handleAnalyze` is a no-op performing zero LLM calls
only for a dataset that is mid-run (`isAnalyzing`); a dataset that
merely has a narrative summary is not guarded by the handler itself
(in the current iteration only the disabled button prevents re-running,
and a re-run performs a full fresh analysis). -/
theorem claim_C4_amended (st : List Table) (index : Nat) (oracle : Nat → LLMResult)
    (h : (st.getD index defaultTable).isAnalyzing = true) :
    handleAnalyze st index oracle = ⟨st, none, 0⟩ := by
  unfold handleAnalyze
  rw [if_pos h]

/-- C4 witness: a mid-run dataset is left untouched with zero calls. -/
theorem claim_C4_witness :
    (([c4BusyTable].getD 0 defaultTable).isAnalyzing = true) ∧
    handleAnalyze [c4BusyTable] 0 (fun _ => .ok "x") = ⟨[c4BusyTable], none, 0⟩ :=
  ⟨by decide, claim_C4_amended [c4BusyTable] 0 (fun _ => .ok "x") (by decide)⟩

/-! ## Claim theorems: per-batch failure tolerance (C5) -/

/-- The entries of `batchResults`, by batch index. -/
theorem handleAnalyzeBatchResults_getD (batches : List (List ProjRow))
    (oracle : Nat → LLMResult) (i : Nat) (hi : i < batches.length) :
    (handleAnalyzeBatchResults batches oracle).getD i "" =
      match oracle i with
      | .ok content => content
      | r => "批次" ++ toString (i + 1) ++ "分析失败: " ++ batchThrownMsg i r := by
  unfold handleAnalyzeBatchResults
  rw [List.getD_eq_getElem?_getD, List.getElem?_map]
  have henum : (batches.enum)[i]? = some (i, batches[i]) := by
    rw [List.getElem?_enum, List.getElem?_eq_getElem hi]
    rfl
  rw [henum]
  rfl

/-- C5: on a run whose final aggregation call succeeds, every batch is
processed even if some batches fail: the summary receives exactly one
entry per batch — the batch's content when its call succeeded, and the
`批次i分析失败: ...` placeholder when it failed — the run ends in the
success status with the aggregated text stored, after exactly
`batches + 1` calls. -/
theorem claim_C5 (st : List Table) (index : Nat) (oracle : Nat → LLMResult)
    (s : String) (hidx : index < st.length)
    (hguard : (st.getD index defaultTable).isAnalyzing = false)
    (hfin : oracle (chunk (st.getD index defaultTable).data 300).length = .ok s) :
    (handleAnalyze st index oracle).summaryInput =
      some (handleAnalyzeBatchResults (chunk (st.getD index defaultTable).data 300) oracle) ∧
    (handleAnalyzeBatchResults (chunk (st.getD index defaultTable).data 300) oracle).length =
      (chunk (st.getD index defaultTable).data 300).length ∧
    (∀ i c, i < (chunk (st.getD index defaultTable).data 300).length → oracle i = .ok c →
      (handleAnalyzeBatchResults (chunk (st.getD index defaultTable).data 300) oracle).getD i "" =
        c) ∧
    (∀ i, i < (chunk (st.getD index defaultTable).data 300).length → (oracle i).isOk = false →
      (handleAnalyzeBatchResults (chunk (st.getD index defaultTable).data 300) oracle).getD i "" =
        "批次" ++ toString (i + 1) ++ "分析失败: " ++ batchThrownMsg i (oracle i)) ∧
    ((handleAnalyze st index oracle).tables.getD index defaultTable).analysisApiStatus =
      some .success ∧
    ((handleAnalyze st index oracle).tables.getD index defaultTable).analysis = some s ∧
    (handleAnalyze st index oracle).calls =
      (chunk (st.getD index defaultTable).data 300).length + 1 := by
  have hrun : handleAnalyze st index oracle =
      ⟨st.set index { st.getD index defaultTable with
          isAnalyzing := false
          analysis := some s
          analysisApiStatus := some .success
          analysisApiMessage := some "整体分析完成！" },
        some (handleAnalyzeBatchResults (chunk (st.getD index defaultTable).data 300) oracle),
        (chunk (st.getD index defaultTable).data 300).length + 1⟩ := by
    unfold handleAnalyze
    rw [if_neg (by rw [hguard]; exact Bool.false_ne_true)]
    dsimp only
    rw [hfin]
  refine ⟨by rw [hrun], ?_, ?_, ?_, ?_, ?_, ?_⟩
  · unfold handleAnalyzeBatchResults
    rw [List.length_map, List.enum_length]
  · intro i c hi hc
    rw [handleAnalyzeBatchResults_getD _ _ i hi, hc]
  · intro i hi hfail
    rw [handleAnalyzeBatchResults_getD _ _ i hi]
    cases hr : oracle i with
    | ok content => rw [hr] at hfail; exact absurd hfail (by simp [LLMResult.isOk])
    | httpError status => rfl
    | badFormat => rfl
    | netError msg => rfl
  · rw [hrun]
    rw [getD_set_self _ _ _ _ hidx]
  · rw [hrun]
    rw [getD_set_self _ _ _ _ hidx]
  · rw [hrun]

/-- C5 witness: one batch, succeeding everywhere. -/
theorem claim_C5_witness :
    (0 < [c8Table].length) ∧
    (([c8Table].getD 0 defaultTable).isAnalyzing = false) ∧
    ((fun _ => LLMResult.ok "汇总") (chunk ([c8Table].getD 0 defaultTable).data 300).length =
      .ok "汇总") ∧
    ((handleAnalyze [c8Table] 0 (fun _ => LLMResult.ok "汇总")).tables.getD 0
        defaultTable).analysis = some "汇总" ∧
    (handleAnalyze [c8Table] 0 (fun _ => LLMResult.ok "汇总")).calls =
      (chunk ([c8Table].getD 0 defaultTable).data 300).length + 1 :=
  ⟨by decide, by decide, by decide,
   (claim_C5 [c8Table] 0 (fun _ => LLMResult.ok "汇总") "汇总" (by decide) (by decide)
      (by decide)).2.2.2.2.2.1,
   (claim_C5 [c8Table] 0 (fun _ => LLMResult.ok "汇总") "汇总" (by decide) (by decide)
      (by decide)).2.2.2.2.2.2⟩

/-! ## Claim theorems: aggregation failure propagation (C6) -/

/-- C6: when the final aggregation call of an analysis run fails (non-2xx,
malformed body or transport error), the run ends in the error status with a
human-readable `分析失败: ...` message, the narrative summary is left unset
(the `analysis` field is unchanged), and this holds however the per-batch
calls went — in particular when they all succeeded. -/
theorem claim_C6 (st : List Table) (index : Nat) (oracle : Nat → LLMResult)
    (hidx : index < st.length)
    (hguard : (st.getD index defaultTable).isAnalyzing = false)
    (hfail : (oracle (chunk (st.getD index defaultTable).data 300).length).isOk = false) :
    ((handleAnalyze st index oracle).tables.getD index defaultTable).analysisApiStatus =
      some .error ∧
    ((handleAnalyze st index oracle).tables.getD index defaultTable).analysis =
      (st.getD index defaultTable).analysis ∧
    ((handleAnalyze st index oracle).tables.getD index defaultTable).analysisApiMessage =
      some ("分析失败: " ++
        finalAnalyzeThrownMsg (oracle (chunk (st.getD index defaultTable).data 300).length)) ∧
    (handleAnalyze st index oracle).calls =
      (chunk (st.getD index defaultTable).data 300).length + 1 := by
  have hrun : handleAnalyze st index oracle =
      ⟨st.set index { st.getD index defaultTable with
          isAnalyzing := false
          analysisApiStatus := some .error
          analysisApiMessage := some ("分析失败: " ++
            finalAnalyzeThrownMsg (oracle (chunk (st.getD index defaultTable).data 300).length)) },
        some (handleAnalyzeBatchResults (chunk (st.getD index defaultTable).data 300) oracle),
        (chunk (st.getD index defaultTable).data 300).length + 1⟩ := by
    unfold handleAnalyze
    rw [if_neg (by rw [hguard]; exact Bool.false_ne_true)]
    dsimp only
    cases hr : oracle (chunk (st.getD index defaultTable).data 300).length with
    | ok content => rw [hr] at hfail; exact absurd hfail (by simp [LLMResult.isOk])
    | httpError status => rfl
    | badFormat => rfl
    | netError msg => rfl
  refine ⟨?_, ?_, ?_, ?_⟩ <;> rw [hrun] <;>
    rw [getD_set_self _ _ _ _ hidx]

/-- C6 witness: all (zero) batch calls succeed, the final call returns a
non-2xx status, the dataset ends in the error state with its summary unset. -/
theorem claim_C6_witness :
    (0 < [c6Table].length) ∧
    (([c6Table].getD 0 defaultTable).isAnalyzing = false) ∧
    (((fun _ => LLMResult.httpError "500 Internal Server Error")
        (chunk ([c6Table].getD 0 defaultTable).data 300).length).isOk = false) ∧
    ((handleAnalyze [c6Table] 0
        (fun _ => LLMResult.httpError "500 Internal Server Error")).tables.getD 0
          defaultTable).analysisApiStatus = some .error ∧
    ((handleAnalyze [c6Table] 0
        (fun _ => LLMResult.httpError "500 Internal Server Error")).tables.getD 0
          defaultTable).analysis = ([c6Table].getD 0 defaultTable).analysis :=
  ⟨by decide, by decide, by decide,
   (claim_C6 [c6Table] 0 (fun _ => LLMResult.httpError "500 Internal Server Error")
      (by decide) (by decide) (by decide)).1,
   (claim_C6 [c6Table] 0 (fun _ => LLMResult.httpError "500 Internal Server Error")
      (by decide) (by decide) (by decide)).2.1⟩

/-! ## Claim theorems: the earlier iteration's analysis call (C10) -/

/-- C10: the earlier iteration's per-column analysis call never
rejects — every outcome resolves to a non-empty ordinary string
(the content, `无分析结果`, or the fallback failure message) — so
`handleAnalyze` stores that string as the dataset's `analysis`,
resets `isAnalyzing`, and the idempotence guard then blocks any
re-run with zero further LLM calls; no failure state is ever entered
by way of the LLM call. -/
theorem claim_C10 (tables : List Early.ProcessedTable) (index : Nat)
    (res res2 : LLMResult) (hidx : index < tables.length)
    (hbusy : (tables.getD index Early.defaultProcessedTable).isAnalyzing = false)
    (hana : Early.analysisTruthy
      (tables.getD index Early.defaultProcessedTable).analysis = false) :
    Early.analyzeDataWithDeepSeek res ≠ "" ∧
    (Early.handleAnalyze tables index res).2 = 1 ∧
    ((Early.handleAnalyze tables index res).1.getD index
        Early.defaultProcessedTable).analysis =
      some (Early.analyzeDataWithDeepSeek res) ∧
    ((Early.handleAnalyze tables index res).1.getD index
        Early.defaultProcessedTable).isAnalyzing = false ∧
    Early.handleAnalyze (Early.handleAnalyze tables index res).1 index res2 =
      ((Early.handleAnalyze tables index res).1, 0) := by
  have hne : Early.analyzeDataWithDeepSeek res ≠ "" := by
    cases res with
    | ok c =>
        unfold Early.analyzeDataWithDeepSeek
        by_cases h : c = "" <;> simp [h]
    | httpError status => simp [Early.analyzeDataWithDeepSeek]
    | badFormat => simp [Early.analyzeDataWithDeepSeek]
    | netError msg => simp [Early.analyzeDataWithDeepSeek]
  have hrun : Early.handleAnalyze tables index res =
      (tables.set index { tables.getD index Early.defaultProcessedTable with
          analysis := some (Early.analyzeDataWithDeepSeek res)
          isAnalyzing := false }, 1) := by
    unfold Early.handleAnalyze
    rw [if_neg (by rw [hbusy, hana]; simp)]
  have hget : ((Early.handleAnalyze tables index res).1.getD index
      Early.defaultProcessedTable) =
      { tables.getD index Early.defaultProcessedTable with
          analysis := some (Early.analyzeDataWithDeepSeek res)
          isAnalyzing := false } := by
    rw [hrun]
    exact getD_set_self _ _ _ _ hidx
  refine ⟨hne, by rw [hrun], by rw [hget], by rw [hget], ?_⟩
  have hnoop : ∀ ts : List Early.ProcessedTable,
      ((ts.getD index Early.defaultProcessedTable).isAnalyzing ||
        Early.analysisTruthy (ts.getD index Early.defaultProcessedTable).analysis) = true →
      Early.handleAnalyze ts index res2 = (ts, 0) := by
    intro ts h
    unfold Early.handleAnalyze
    dsimp only
    rw [if_pos h]
  exact hnoop _ (by rw [hget]; simp [Early.analysisTruthy, hne])

/-- C10 witness: a fresh dataset, a malformed response: the stored
analysis is `无分析结果` and the second invocation is a guarded no-op. -/
theorem claim_C10_witness :
    (0 < [Early.defaultProcessedTable].length) ∧
    (([Early.defaultProcessedTable].getD 0 Early.defaultProcessedTable).isAnalyzing
      = false) ∧
    (Early.analysisTruthy
      ([Early.defaultProcessedTable].getD 0 Early.defaultProcessedTable).analysis
      = false) ∧
    Early.analyzeDataWithDeepSeek .badFormat ≠ "" ∧
    ((Early.handleAnalyze [Early.defaultProcessedTable] 0 .badFormat).1.getD 0
        Early.defaultProcessedTable).analysis =
      some (Early.analyzeDataWithDeepSeek .badFormat) ∧
    Early.handleAnalyze
        (Early.handleAnalyze [Early.defaultProcessedTable] 0 .badFormat).1 0
        (.ok "x") =
      ((Early.handleAnalyze [Early.defaultProcessedTable] 0 .badFormat).1, 0) :=
  ⟨by decide, by decide, by decide,
   (claim_C10 [Early.defaultProcessedTable] 0 .badFormat (.ok "x") (by decide)
      (by decide) (by decide)).1,
   (claim_C10 [Early.defaultProcessedTable] 0 .badFormat (.ok "x") (by decide)
      (by decide) (by decide)).2.2.1,
   (claim_C10 [Early.defaultProcessedTable] 0 .badFormat (.ok "x") (by decide)
      (by decide) (by decide)).2.2.2.2⟩

/-! ## Claim theorems: the classification aggregation payload (C8) -/

/-- C8 evidence of the code defect: on a one-row dataset whose only
classification call succeeds with `效率问题`, the run does annotate the
row in component state with that result, yet the record handed to the
final aggregation call carries an empty classification field — the
payload is built from the pre-run `currentTable.data` snapshot, so the
annotations of the run never reach the aggregation prompt. -/
theorem claim_C8_bug :
    ((handleTopicsAnalysis [c8Table] 0 "效率问题"
        (fun _ => .ok "效率问题")).tables.getD 0 defaultTable).data =
      [⟨0, c8Row.cells ++ [("共性内容分析", "效率问题")]⟩] ∧
    (handleTopicsAnalysis [c8Table] 0 "效率问题"
        (fun _ => .ok "效率问题")).payload =
      some (["效率问题"], [⟨"张三-001", "流程太慢", ""⟩]) ∧
    (handleTopicsAnalysis [c8Table] 0 "效率问题" (fun _ => .ok "效率问题")).calls = 2 := by
  decide

/-! ## Classification-loop lemmas (towards C7) -/

theorem analyzeTopic_snd (columnName tableName : String) (row : ProjRow)
    (res : LLMResult) :
    (analyzeTopicWithDeepSeek (rowContent columnName tableName row) res).2 =
      rowCallCount columnName tableName row := by
  unfold analyzeTopicWithDeepSeek rowCallCount
  by_cases h1 : rowContent columnName tableName row = ""
  · simp [h1]
  · by_cases h2 : strTrim (rowContent columnName tableName row) = ""
    · simp [h1, h2]
    · cases res with
      | ok c => by_cases h3 : c = "" <;> simp [h1, h2, h3]
      | httpError status => by_cases h3 : status = "401" <;>
          by_cases h4 : status = "429" <;> simp [h1, h2, h3, h4]
      | badFormat => simp [h1, h2]
      | netError msg => simp [h1, h2]

theorem applyMarksAt_cons_none (data : List ProjRow) (s : Nat)
    (ms : List (Option String)) :
    applyMarksAt data s (none :: ms) = applyMarksAt data (s + 1) ms := rfl

theorem applyMarksAt_cons_some (data : List ProjRow) (s : Nat) (a : String)
    (ms : List (Option String)) :
    applyMarksAt data s (some a :: ms) =
      applyMarksAt (annotateRowAt data s a) (s + 1) ms := rfl

theorem applyMarksAt_nil (data : List ProjRow) (s : Nat) :
    applyMarksAt data s [] = data := rfl

theorem classifyMarks_nil (columnName tableName : String)
    (oracle : Nat → LLMResult) (k : Nat) :
    classifyMarks columnName tableName oracle [] k = ([], k) := rfl

theorem classifyMarks_cons (columnName tableName : String)
    (oracle : Nat → LLMResult) (row : ProjRow) (rest : List ProjRow) (k : Nat) :
    classifyMarks columnName tableName oracle (row :: rest) k =
      if rowContent columnName tableName row = "" then
        (none :: (classifyMarks columnName tableName oracle rest k).1,
         (classifyMarks columnName tableName oracle rest k).2)
      else
        (some (match (analyzeTopicWithDeepSeek (rowContent columnName tableName row)
              (oracle k)).1 with
            | .ok x => x
            | .error _ => "分析失败") ::
          (classifyMarks columnName tableName oracle rest
            (k + (analyzeTopicWithDeepSeek (rowContent columnName tableName row)
              (oracle k)).2)).1,
         (classifyMarks columnName tableName oracle rest
            (k + (analyzeTopicWithDeepSeek (rowContent columnName tableName row)
              (oracle k)).2)).2) := rfl

theorem runBatchRows_cons (columnName tableName : String)
    (oracle : Nat → LLMResult) (batchIndex : Nat) (row : ProjRow)
    (rest : List ProjRow) (rowIndex : Nat) (data : List ProjRow) (k : Nat) :
    runBatchRows columnName tableName oracle batchIndex (row :: rest) rowIndex data k =
      if rowContent columnName tableName row = "" then
        runBatchRows columnName tableName oracle batchIndex rest (rowIndex + 1) data k
      else
        runBatchRows columnName tableName oracle batchIndex rest (rowIndex + 1)
          (annotateRowAt data (batchIndex * 300 + rowIndex)
            (match (analyzeTopicWithDeepSeek (rowContent columnName tableName row)
                (oracle k)).1 with
              | .ok x => x
              | .error _ => "分析失败"))
          (k + (analyzeTopicWithDeepSeek (rowContent columnName tableName row)
            (oracle k)).2) := rfl

theorem runBatchRows_eq (columnName tableName : String) (oracle : Nat → LLMResult)
    (batchIndex : Nat) (batch : List ProjRow) :
    ∀ (rowIndex : Nat) (data : List ProjRow) (k : Nat),
    runBatchRows columnName tableName oracle batchIndex batch rowIndex data k =
      (applyMarksAt data (batchIndex * 300 + rowIndex)
        (classifyMarks columnName tableName oracle batch k).1,
       (classifyMarks columnName tableName oracle batch k).2) := by
  induction batch with
  | nil => intro rowIndex data k; rfl
  | cons row rest ih =>
      intro rowIndex data k
      rw [runBatchRows_cons, classifyMarks_cons]
      by_cases hc : rowContent columnName tableName row = ""
      · rw [if_pos hc, if_pos hc, ih]
        dsimp only
        rw [applyMarksAt_cons_none, Nat.add_assoc]
      · rw [if_neg hc, if_neg hc, ih]
        dsimp only
        rw [applyMarksAt_cons_some, Nat.add_assoc]

theorem classifyMarks_append (columnName tableName : String)
    (oracle : Nat → LLMResult) (ys : List ProjRow) (xs : List ProjRow) :
    ∀ k : Nat,
    classifyMarks columnName tableName oracle (xs ++ ys) k =
      ((classifyMarks columnName tableName oracle xs k).1 ++
        (classifyMarks columnName tableName oracle ys
          (classifyMarks columnName tableName oracle xs k).2).1,
       (classifyMarks columnName tableName oracle ys
          (classifyMarks columnName tableName oracle xs k).2).2) := by
  induction xs with
  | nil => intro k; rfl
  | cons row rest ih =>
      intro k
      rw [List.cons_append, classifyMarks_cons, classifyMarks_cons]
      by_cases hc : rowContent columnName tableName row = ""
      · rw [if_pos hc, if_pos hc, ih]
        simp
      · rw [if_neg hc, if_neg hc, ih]
        simp

theorem classifyMarks_length (columnName tableName : String)
    (oracle : Nat → LLMResult) (rows : List ProjRow) :
    ∀ k : Nat,
    (classifyMarks columnName tableName oracle rows k).1.length = rows.length := by
  induction rows with
  | nil => intro k; rfl
  | cons row rest ih =>
      intro k
      rw [classifyMarks_cons]
      by_cases hc : rowContent columnName tableName row = ""
      · rw [if_pos hc]
        simp [ih]
      · rw [if_neg hc]
        simp [ih]

theorem classifyMarks_snd (columnName tableName : String)
    (oracle : Nat → LLMResult) (rows : List ProjRow) :
    ∀ k : Nat,
    (classifyMarks columnName tableName oracle rows k).2 =
      k + totalRowCalls columnName tableName rows := by
  induction rows with
  | nil => intro k; simp [totalRowCalls, classifyMarks]
  | cons row rest ih =>
      intro k
      rw [classifyMarks_cons]
      unfold totalRowCalls
      rw [List.map_cons, List.sum_cons]
      by_cases hc : rowContent columnName tableName row = ""
      · rw [if_pos hc]
        dsimp only
        rw [ih]
        unfold totalRowCalls
        have h0 : rowCallCount columnName tableName row = 0 := by
          unfold rowCallCount
          simp [hc]
        rw [h0]
        omega
      · rw [if_neg hc]
        dsimp only
        rw [ih, analyzeTopic_snd]
        unfold totalRowCalls
        omega

theorem applyMarksAt_append (data : List ProjRow) (s : Nat)
    (ms₁ ms₂ : List (Option String)) :
    applyMarksAt data s (ms₁ ++ ms₂) =
      applyMarksAt (applyMarksAt data s ms₁) (s + ms₁.length) ms₂ := by
  induction ms₁ generalizing data s with
  | nil => simp [applyMarksAt]
  | cons m ms ih =>
      cases m with
      | none =>
          rw [List.cons_append, applyMarksAt_cons_none, applyMarksAt_cons_none, ih]
          congr 1
          rw [List.length_cons]
          omega
      | some a =>
          rw [List.cons_append, applyMarksAt_cons_some, applyMarksAt_cons_some, ih]
          congr 1
          rw [List.length_cons]
          omega

theorem runTopicBatches_cons (columnName tableName : String)
    (oracle : Nat → LLMResult) (b : List ProjRow) (rest : List (List ProjRow))
    (batchIndex : Nat) (data : List ProjRow) (k : Nat) :
    runTopicBatches columnName tableName oracle (b :: rest) batchIndex data k =
      runTopicBatches columnName tableName oracle rest (batchIndex + 1)
        (runBatchRows columnName tableName oracle batchIndex b 0 data k).1
        (runBatchRows columnName tableName oracle batchIndex b 0 data k).2 := rfl

theorem runTopicBatches_chunk (columnName tableName : String)
    (oracle : Nat → LLMResult) (rows : List ProjRow) (b : Nat)
    (data : List ProjRow) (k : Nat) :
    runTopicBatches columnName tableName oracle (chunk rows 300) b data k =
      (applyMarksAt data (b * 300) (classifyMarks columnName tableName oracle rows k).1,
       (classifyMarks columnName tableName oracle rows k).2) := by
  rcases eq_or_ne rows [] with hr | hr
  · subst hr
    rw [chunk_nil]
    rfl
  · have hpos : 0 < rows.length := List.length_pos.mpr hr
    rw [chunk_cons rows 300 hr (by omega), runTopicBatches_cons, runBatchRows_eq,
      Nat.add_zero,
      runTopicBatches_chunk columnName tableName oracle (rows.drop 300) (b + 1)]
    have hsplit := classifyMarks_append columnName tableName oracle
      (rows.drop 300) (rows.take 300) k
    rw [List.take_append_drop] at hsplit
    rw [hsplit]
    dsimp only
    rw [applyMarksAt_append, classifyMarks_length]
    simp only [Nat.add_zero]
    rcases Nat.lt_or_ge rows.length 300 with hc | hc
    · have hdrop : rows.drop 300 = [] := List.drop_eq_nil_of_le (by omega)
      rw [hdrop, classifyMarks_nil]
      dsimp only
      simp only [applyMarksAt_nil]
    · have htake : (rows.take 300).length = 300 := by
        rw [List.length_take]
        omega
      rw [htake]
      have harith : b * 300 + 300 = (b + 1) * 300 := by ring
      rw [harith]
termination_by rows.length
decreasing_by
  simp only [List.length_drop]
  omega

/-! ## From positional marks to the per-row map (towards C7) -/

theorem getD_append_cons (front : List ProjRow) (row : ProjRow)
    (rest : List ProjRow) :
    (front ++ row :: rest).getD front.length defaultProjRow = row := by
  induction front with
  | nil => rfl
  | cons a front ih => simpa using ih


theorem set_append_cons (front : List ProjRow) (row v : ProjRow)
    (rest : List ProjRow) :
    (front ++ row :: rest).set front.length v = front ++ v :: rest := by
  induction front with
  | nil => rfl
  | cons a front ih =>
      rw [List.cons_append, List.length_cons, List.set_cons_succ, ih, List.cons_append]

theorem applyMarksAt_eq_zipApply (ms : List (Option String)) :
    ∀ (front rows : List ProjRow), ms.length = rows.length →
    applyMarksAt (front ++ rows) front.length ms = front ++ zipApply rows ms := by
  induction ms with
  | nil =>
      intro front rows hlen
      have : rows = [] := List.eq_nil_of_length_eq_zero hlen.symm
      subst this
      simp [applyMarksAt, zipApply]
  | cons m ms ih =>
      intro front rows hlen
      cases rows with
      | nil => simp at hlen
      | cons row rest =>
          have hlen' : ms.length = rest.length := by
            simpa using hlen
          cases m with
          | none =>
              unfold applyMarksAt
              have hfr : front ++ row :: rest = (front ++ [row]) ++ rest := by simp
              have hlen2 : front.length + 1 = (front ++ [row]).length := by simp
              rw [hfr, hlen2, ih (front ++ [row]) rest hlen']
              simp [zipApply, List.zipWith]
          | some a =>
              unfold applyMarksAt annotateRowAt
              rw [getD_append_cons, set_append_cons]
              have hfr : front ++ ProjRow.mk row.key (objSet row.cells "共性内容分析" a) :: rest =
                  (front ++ [ProjRow.mk row.key (objSet row.cells "共性内容分析" a)]) ++ rest := by
                simp
              have hlen2 : front.length + 1 =
                  (front ++ [ProjRow.mk row.key (objSet row.cells "共性内容分析" a)]).length := by
                simp
              rw [hfr, hlen2, ih _ rest hlen']
              simp [zipApply, List.zipWith]

theorem zipApply_classifyMarks (columnName tableName : String)
    (oracle : Nat → LLMResult) (rows : List ProjRow) :
    ∀ k : Nat, (∀ r ∈ rows, rowContent columnName tableName r ≠ "") →
    zipApply rows (classifyMarks columnName tableName oracle rows k).1 =
      rows.enum.map (fun p =>
        { key := p.2.key
          cells := objSet p.2.cells "共性内容分析"
            (claimRowMark (rowContent columnName tableName p.2)
              (oracle (k + callsBefore columnName tableName rows p.1))) }) := by
  induction rows with
  | nil => intro k _; rfl
  | cons row rest ih =>
      intro k hne
      have hcr : rowContent columnName tableName row ≠ "" :=
        hne row (by simp)
      rw [classifyMarks_cons, if_neg hcr]
      dsimp only
      rw [List.enum_cons', List.map_cons]
      unfold zipApply
      rw [List.zipWith_cons_cons]
      have hhead :
          (match (analyzeTopicWithDeepSeek (rowContent columnName tableName row)
              (oracle k)).1 with
            | .ok x => x
            | .error _ => "分析失败") =
          claimRowMark (rowContent columnName tableName row)
            (oracle (k + callsBefore columnName tableName (row :: rest) 0)) := by
        unfold claimRowMark analyzeTopicWithDeepSeek callsBefore
        simp only [List.take_zero, List.map_nil, List.sum_nil, Nat.add_zero]
        by_cases h2 : strTrim (rowContent columnName tableName row) = ""
        · simp [hcr, h2]
        · cases oracle k with
          | ok c => by_cases h3 : c = "" <;> simp [hcr, h2, h3]
          | httpError status => by_cases h3 : status = "401" <;>
              by_cases h4 : status = "429" <;> simp [hcr, h2, h3, h4]
          | badFormat => simp [hcr, h2]
          | netError msg => simp [hcr, h2]
      rw [hhead]
      have htail := ih (k + (analyzeTopicWithDeepSeek
        (rowContent columnName tableName row) (oracle k)).2)
        (fun r hr => hne r (by simp [hr]))
      unfold zipApply at htail
      rw [htail, List.map_map]
      congr 1
      apply List.map_congr_left
      intro p _
      simp only [Function.comp_apply, Prod.map_fst, Prod.map_snd, id_eq]
      have harg : k + (analyzeTopicWithDeepSeek (rowContent columnName tableName row)
            (oracle k)).2 + callsBefore columnName tableName rest p.1 =
          k + callsBefore columnName tableName (row :: rest) (p.1 + 1) := by
        rw [analyzeTopic_snd]
        unfold callsBefore
        simp only [List.take_succ_cons, List.map_cons, List.sum_cons]
        omega
      rw [harg]


theorem applyMarksAt_zero (rows : List ProjRow) (ms : List (Option String))
    (hlen : ms.length = rows.length) :
    applyMarksAt rows 0 ms = zipApply rows ms := by
  have h := applyMarksAt_eq_zipApply ms [] rows hlen
  simpa using h

theorem totalRowCalls_eq_count (columnName tableName : String) (rows : List ProjRow) :
    totalRowCalls columnName tableName rows =
      (rows.filter (fun r =>
        !(rowContent columnName tableName r = "") &&
        !(strTrim (rowContent columnName tableName r) = ""))).length := by
  induction rows with
  | nil => rfl
  | cons row rest ih =>
      unfold totalRowCalls
      rw [List.map_cons, List.sum_cons]
      unfold totalRowCalls at ih
      rw [ih, List.filter_cons]
      unfold rowCallCount
      by_cases h1 : rowContent columnName tableName row = ""
      · simp [h1]
      · by_cases h2 : strTrim (rowContent columnName tableName row) = ""
        · simp [h1, h2]
        · simp [h1, h2]
          omega

/-! ## Claim theorems: per-row classification tolerance (C7) -/

/-- C7: in a classification run over a dataset whose rows all carry
text (the projection invariant), rows are handled independently: a row
whose text is blank (whitespace only) is marked `内容为空` and costs no
LLM call; every other row costs exactly one call and is marked with its
call's result, or with the `分析失败` failure marker when that call
fails — a row's failure never stops the remaining rows from being
processed, every row ends up annotated, and only the outcome of the one
final aggregation call (made after all rows, as call number
`totalRowCalls`) decides whether the run ends in the success or the
error status. -/
theorem claim_C7 (st : List Table) (index : Nat) (input : String)
    (oracle : Nat → LLMResult) (hidx : index < st.length)
    (hbusy : (st.getD index defaultTable).isAnalyzingTopics = false)
    (htop : parsedTopics input ≠ [])
    (hne : ∀ r ∈ (st.getD index defaultTable).data,
      rowContent (extractColumnName (st.getD index defaultTable).name)
        (st.getD index defaultTable).name r ≠ "") :
    ((handleTopicsAnalysis st index input oracle).tables.getD index defaultTable).data =
      claimClassifiedData (extractColumnName (st.getD index defaultTable).name)
        (st.getD index defaultTable).name oracle (st.getD index defaultTable).data ∧
    ((handleTopicsAnalysis st index input oracle).tables.getD index
        defaultTable).topicsApiStatus =
      some (if (oracle (totalRowCalls (extractColumnName (st.getD index defaultTable).name)
          (st.getD index defaultTable).name (st.getD index defaultTable).data)).isOk
        then ApiStatus.success else ApiStatus.error) ∧
    (handleTopicsAnalysis st index input oracle).calls =
      totalRowCalls (extractColumnName (st.getD index defaultTable).name)
        (st.getD index defaultTable).name (st.getD index defaultTable).data + 1 ∧
    totalRowCalls (extractColumnName (st.getD index defaultTable).name)
        (st.getD index defaultTable).name (st.getD index defaultTable).data =
      ((st.getD index defaultTable).data.filter (fun r =>
        !(rowContent (extractColumnName (st.getD index defaultTable).name)
            (st.getD index defaultTable).name r = "") &&
        !(strTrim (rowContent (extractColumnName (st.getD index defaultTable).name)
            (st.getD index defaultTable).name r) = ""))).length := by
  have hlen := classifyMarks_length (extractColumnName (st.getD index defaultTable).name)
    (st.getD index defaultTable).name oracle (st.getD index defaultTable).data 0
  have hsnd := classifyMarks_snd (extractColumnName (st.getD index defaultTable).name)
    (st.getD index defaultTable).name oracle (st.getD index defaultTable).data 0
  have htot : (classifyMarks (extractColumnName (st.getD index defaultTable).name)
      (st.getD index defaultTable).name oracle (st.getD index defaultTable).data 0).2 =
      totalRowCalls (extractColumnName (st.getD index defaultTable).name)
        (st.getD index defaultTable).name (st.getD index defaultTable).data := by
    rw [hsnd]
    omega
  have hdata_eq : applyMarksAt (st.getD index defaultTable).data 0
      (classifyMarks (extractColumnName (st.getD index defaultTable).name)
        (st.getD index defaultTable).name oracle (st.getD index defaultTable).data 0).1 =
      claimClassifiedData (extractColumnName (st.getD index defaultTable).name)
        (st.getD index defaultTable).name oracle (st.getD index defaultTable).data := by
    rw [applyMarksAt_zero _ _ hlen,
      zipApply_classifyMarks _ _ oracle _ 0 hne]
    unfold claimClassifiedData
    simp only [Nat.zero_add]
  have hrun : handleTopicsAnalysis st index input oracle =
      (match oracle (classifyMarks (extractColumnName (st.getD index defaultTable).name)
          (st.getD index defaultTable).name oracle (st.getD index defaultTable).data 0).2 with
        | .ok content =>
            ⟨st.set index { st.getD index defaultTable with
                data := applyMarksAt (st.getD index defaultTable).data 0
                  (classifyMarks (extractColumnName (st.getD index defaultTable).name)
                    (st.getD index defaultTable).name oracle
                    (st.getD index defaultTable).data 0).1
                isAnalyzingTopics := false
                commonTopics := parsedTopics input
                topicsAnalysis := some content
                topicsApiStatus := some .success
                topicsApiMessage := some "共性内容分析完成！" },
              some (parsedTopics input,
                analysisData (st.getD index defaultTable)
                  (extractColumnName (st.getD index defaultTable).name)),
              (classifyMarks (extractColumnName (st.getD index defaultTable).name)
                (st.getD index defaultTable).name oracle
                (st.getD index defaultTable).data 0).2 + 1⟩
        | r =>
            ⟨st.set index { st.getD index defaultTable with
                data := applyMarksAt (st.getD index defaultTable).data 0
                  (classifyMarks (extractColumnName (st.getD index defaultTable).name)
                    (st.getD index defaultTable).name oracle
                    (st.getD index defaultTable).data 0).1
                isAnalyzingTopics := false
                commonTopics := parsedTopics input
                topicsApiStatus := some .error
                topicsApiMessage := some ("分析失败: " ++ topicsFinalThrownMsg r) },
              some (parsedTopics input,
                analysisData (st.getD index defaultTable)
                  (extractColumnName (st.getD index defaultTable).name)),
              (classifyMarks (extractColumnName (st.getD index defaultTable).name)
                (st.getD index defaultTable).name oracle
                (st.getD index defaultTable).data 0).2 + 1⟩) := by
    unfold handleTopicsAnalysis
    rw [if_neg (by rw [hbusy]; exact Bool.false_ne_true)]
    dsimp only
    rw [if_neg htop]
    rw [runTopicBatches_chunk]
  refine ⟨?_, ?_, ?_, totalRowCalls_eq_count _ _ _⟩
  · rw [hrun]
    cases ho : oracle (classifyMarks (extractColumnName (st.getD index defaultTable).name)
        (st.getD index defaultTable).name oracle (st.getD index defaultTable).data 0).2 <;>
      (dsimp only
       rw [getD_set_self _ _ _ _ hidx]
       exact hdata_eq)
  · rw [hrun, ← htot]
    cases ho : oracle (classifyMarks (extractColumnName (st.getD index defaultTable).name)
        (st.getD index defaultTable).name oracle (st.getD index defaultTable).data 0).2 <;>
      (dsimp only
       rw [getD_set_self _ _ _ _ hidx]
       simp [LLMResult.isOk])
  · rw [hrun, ← htot]
    cases ho : oracle (classifyMarks (extractColumnName (st.getD index defaultTable).name)
        (st.getD index defaultTable).name oracle (st.getD index defaultTable).data 0).2 <;>
      rfl

/-- C7 witness at the one-row dataset `c8Table` with a succeeding
oracle. -/
theorem claim_C7_witness :
    (0 < [c8Table].length) ∧
    (([c8Table].getD 0 defaultTable).isAnalyzingTopics = false) ∧
    (parsedTopics "效率问题" ≠ []) ∧
    (∀ r ∈ ([c8Table].getD 0 defaultTable).data,
      rowContent (extractColumnName ([c8Table].getD 0 defaultTable).name)
        ([c8Table].getD 0 defaultTable).name r ≠ "") ∧
    (((handleTopicsAnalysis [c8Table] 0 "效率问题"
          (fun _ => .ok "效率问题")).tables.getD 0 defaultTable).data =
        claimClassifiedData (extractColumnName ([c8Table].getD 0 defaultTable).name)
          ([c8Table].getD 0 defaultTable).name (fun _ => .ok "效率问题")
          ([c8Table].getD 0 defaultTable).data ∧
      ((handleTopicsAnalysis [c8Table] 0 "效率问题"
          (fun _ => .ok "效率问题")).tables.getD 0 defaultTable).topicsApiStatus =
        some (if ((fun _ => LLMResult.ok "效率问题")
            (totalRowCalls (extractColumnName ([c8Table].getD 0 defaultTable).name)
              ([c8Table].getD 0 defaultTable).name
              ([c8Table].getD 0 defaultTable).data)).isOk
          then ApiStatus.success else ApiStatus.error) ∧
      (handleTopicsAnalysis [c8Table] 0 "效率问题" (fun _ => .ok "效率问题")).calls =
        totalRowCalls (extractColumnName ([c8Table].getD 0 defaultTable).name)
          ([c8Table].getD 0 defaultTable).name ([c8Table].getD 0 defaultTable).data + 1 ∧
      totalRowCalls (extractColumnName ([c8Table].getD 0 defaultTable).name)
          ([c8Table].getD 0 defaultTable).name ([c8Table].getD 0 defaultTable).data =
        (([c8Table].getD 0 defaultTable).data.filter (fun r =>
          !(rowContent (extractColumnName ([c8Table].getD 0 defaultTable).name)
              ([c8Table].getD 0 defaultTable).name r = "") &&
          !(strTrim (rowContent (extractColumnName ([c8Table].getD 0 defaultTable).name)
              ([c8Table].getD 0 defaultTable).name r) = ""))).length) :=
  ⟨by decide, by decide, by decide, by decide,
   claim_C7 [c8Table] 0 "效率问题" (fun _ => .ok "效率问题") (by decide) (by decide)
     (by decide) (by decide)⟩

end ExcelProc
